import Mathlib

/-!
Verification development for the jsonapi-go codec (pieoneers/jsonapi-go).

The Go source (jsonapi.go) is shallowly embedded here:

* JSON wire text is modelled by the `Json` AST.  The Go code's byte-prefix
  sniffing (`bytes.HasPrefix(payload, []byte("\x7b"))` on the raw sub-document)
  corresponds exactly to the serialized value being a JSON object / array,
  so it is embedded as a match on the `Json.obj` / `Json.arr` constructors.
* The generic `encoding/json` encoder/decoder is an external collaborator of
  the library; struct-tag driven attribute encoding is represented by carrying
  the already-encoded `Json` value, and `omitempty` / `SetEscapeHTML` details
  are reflected in the explicit field lists of the encode functions.
* Go interface capabilities (MarshalData, MarshalErrors, MarshalIncluded,
  MarshalMeta) are modelled by `Option`-valued accessors in `MarshalPayload`:
  `some` means the dynamic type implements the interface and records what the
  accessor returns.  The Go `switch payload.(type)` checks its cases in source
  order (MarshalData before MarshalErrors), which the embedding mirrors.
* Relationship values returned by `GetRelationships` are dispatched on their
  runtime reflect kind (`reflect.Struct` vs `reflect.Slice`); `RelValue`
  records that shape, holding the `MarshalResourceIdentifier` view
  (`GetID`/`GetType`) of the underlying value.
-/

/-- JSON values, the model of wire text.  A serialized `obj` is exactly the
text beginning with a brace and a serialized `arr` the text beginning with a
bracket, which is what the Go code's prefix sniffing distinguishes. -/
inductive Json where
  | null : Json
  | bool (b : Bool) : Json
  | num (n : Int) : Json
  | str (s : String) : Json
  | arr (items : List Json) : Json
  | obj (fields : List (String × Json)) : Json

/-- Whether a JSON value is an object (its serialization starts with a brace). -/
def Json.isObj : Json → Bool
  | .obj _ => true
  | _ => false

/-- Whether a JSON value is an array (its serialization starts with a bracket). -/
def Json.isArr : Json → Bool
  | .arr _ => true
  | _ => false

/-- Field lookup in a decoded JSON object, as `encoding/json` matches keys. -/
def getField : List (String × Json) → String → Option Json
  | [], _ => none
  | kv :: rest, k => if kv.1 = k then some kv.2 else getField rest k

/-- `ResourceObjectIdentifier` from jsonapi.go: `Type` and `ID` with json tags
`type` and `id,omitempty`. -/
structure ResourceObjectIdentifier where
  type_ : String
  id : String
deriving DecidableEq, Repr

/-- `ErrorObjectSource` from jsonapi.go: `Pointer` with tag `pointer,omitempty`. -/
structure ErrorObjectSource where
  pointer : String
deriving DecidableEq, Repr

/-- `ErrorObject` from jsonapi.go: `Title`, `Code`, `Source`, each omitempty. -/
structure ErrorObject where
  title : String
  code : String
  source : ErrorObjectSource
deriving DecidableEq, Repr

/-- `relationshipData` from jsonapi.go: `One *ResourceObjectIdentifier` and
`Many []*ResourceObjectIdentifier`; `none` models a nil pointer / nil slice. -/
structure relationshipData where
  one : Option ResourceObjectIdentifier
  many : Option (List ResourceObjectIdentifier)
deriving DecidableEq, Repr

/-- `relationship` from jsonapi.go: `Data *relationshipData` with json tag
`data` (no omitempty, so a nil pointer serializes as null). -/
structure relationship where
  data : Option relationshipData
deriving DecidableEq, Repr

/-- `ResourceObject` from jsonapi.go: embedded identifier plus raw
`Attributes`, `Meta` (both `json.RawMessage`, omitempty) and
`Relationships map[string]*relationship` (omitempty).  The raw messages are
carried as `Json` values; `none` models nil raw bytes / a nil map. -/
structure ResourceObject where
  identifier : ResourceObjectIdentifier
  attributes : Option Json
  meta : Option Json
  relationships : Option (List (String × relationship))

/-- `documentData` from jsonapi.go: `One *ResourceObject`, `Many []*ResourceObject`. -/
structure DocumentData where
  one : Option ResourceObject
  many : Option (List ResourceObject)

/-- `Document` from jsonapi.go.  `errors` is `Option`-valued because
`Unmarshal` distinguishes a nil errors slice (`doc.Errors != nil`); for
`included` a nil and an empty slice are indistinguishable to the library, so
it is a plain list. -/
structure Document where
  data : Option DocumentData
  errors : Option (List ErrorObject)
  included : List ResourceObject
  meta : Option Json

/-- A value found in the map returned by `GetRelationships`, as dispatched by
`marshalRelationship` on its reflect kind: a struct (carrying its
`GetID`/`GetType` view, per the `MarshalResourceIdentifier` assertion) or a
slice of such values. -/
inductive RelValue where
  | record (ident : ResourceObjectIdentifier)
  | sequence (idents : List ResourceObjectIdentifier)
deriving DecidableEq, Repr

/-- A marshalable resource value: its `GetID`/`GetType` results, the generic
JSON encoding of its attribute fields (what `enc.Encode(mri)` produces), and
the optional `MarshalMeta` / `MarshalRelationships` capabilities. -/
structure Resource where
  id : String
  type_ : String
  attributes : Json
  meta : Option Json
  rels : Option (List (String × RelValue))

/-- The value returned by `GetData`, dispatched by `marshalDocument` on its
reflect kind: struct or slice. -/
inductive DataValue where
  | one (r : Resource)
  | many (rs : List Resource)

/-- A marshal payload described by its capabilities: `some` means the dynamic
type implements the corresponding interface (MarshalData, MarshalErrors,
MarshalIncluded, MarshalMeta) and records the accessor's result. -/
structure MarshalPayload where
  getData : Option DataValue
  getErrors : Option (List ErrorObject)
  getIncluded : Option (List Resource)
  getMeta : Option Json

/-- `marshalResourceObjectIdentifier` from jsonapi.go. -/
def marshalResourceObjectIdentifier (r : Resource) : ResourceObjectIdentifier :=
  { id := r.id, type_ := r.type_ }

/-- `marshalRelationshipStruct` from jsonapi.go: a struct relationship value
becomes a relationship whose data has only `One` set. -/
def marshalRelationshipStruct (i : ResourceObjectIdentifier) : relationship :=
  { data := some { one := some i, many := none } }

/-- `marshalRelationshipSlice` from jsonapi.go: a slice relationship value
becomes a relationship whose data has `Many` set (non-nil, possibly empty). -/
def marshalRelationshipSlice (l : List ResourceObjectIdentifier) : relationship :=
  { data := some { one := none, many := some l } }

/-- `marshalRelationship` from jsonapi.go: dispatch on the runtime kind. -/
def marshalRelationship : RelValue → relationship
  | .record i => marshalRelationshipStruct i
  | .sequence l => marshalRelationshipSlice l

/-- `marshalRelationships` from jsonapi.go: marshal every (name, value) pair
of the `GetRelationships` map. -/
def marshalRelationships (rels : List (String × RelValue)) :
    List (String × relationship) :=
  rels.map fun kv => (kv.1, marshalRelationship kv.2)

/-- `marshalResourceObject` from jsonapi.go: identifier, attributes (omitted
when the generic encoding is the empty object), per-resource meta (omitted
when empty), and relationships when the value implements MarshalRelationships. -/
def marshalResourceObject (r : Resource) : ResourceObject :=
  { identifier := marshalResourceObjectIdentifier r
  , attributes :=
      match r.attributes with
      | Json.obj [] => none
      | a => some a
  , meta :=
      match r.meta with
      | some (Json.obj []) => none
      | some m => some m
      | none => none
  , relationships :=
      match r.rels with
      | some rels => some (marshalRelationships rels)
      | none => none }

/-- `marshalResourceObjects` from jsonapi.go: marshal each element of the slice. -/
def marshalResourceObjects (rs : List Resource) : List ResourceObject :=
  rs.map marshalResourceObject

/-- `marshalIncluded` from jsonapi.go: marshal every element of `GetIncluded`
in order, appending each one — there is no deduplication. -/
def marshalIncluded (inc : List Resource) : List ResourceObject :=
  inc.map marshalResourceObject

/-- `marshalDocument` from jsonapi.go.  The Go type switch checks
`case MarshalData` before `case MarshalErrors`, so a payload implementing both
produces a data document; `GetErrors` is consulted only when `GetData` is
absent.  Included and meta are taken from the top-level payload only. -/
def marshalDocument (p : MarshalPayload) : Document :=
  { data :=
      match p.getData with
      | some (DataValue.one r) => some { one := some (marshalResourceObject r), many := none }
      | some (DataValue.many rs) => some { one := none, many := some (marshalResourceObjects rs) }
      | none => none
  , errors :=
      match p.getData with
      | some _ => none
      | none => p.getErrors
  , included :=
      match p.getIncluded with
      | some inc => marshalIncluded inc
      | none => []
  , meta :=
      match p.getMeta with
      | some (Json.obj []) => none
      | some m => some m
      | none => none }

/-- Wire encoding of a `ResourceObjectIdentifier`: fields in declaration order,
`id` omitted when empty (json tag `id,omitempty`). -/
def encodeResourceObjectIdentifier (i : ResourceObjectIdentifier) : Json :=
  Json.obj ([("type", Json.str i.type_)] ++
    (if i.id = "" then [] else [("id", Json.str i.id)]))

/-- `relationshipData.MarshalJSON` from jsonapi.go: marshal `One` only when it
is non-nil and its ID is non-empty; otherwise marshal `Many` (a nil slice
serializes as null, a non-nil empty slice as an empty array). -/
def relationshipDataMarshalJSON (d : relationshipData) : Json :=
  match d.one with
  | some o =>
      if 0 < o.id.length then encodeResourceObjectIdentifier o
      else
        match d.many with
        | some l => Json.arr (l.map encodeResourceObjectIdentifier)
        | none => Json.null
  | none =>
      match d.many with
      | some l => Json.arr (l.map encodeResourceObjectIdentifier)
      | none => Json.null

/-- Wire encoding of a `relationship`: the `data` key is always present (no
omitempty); a nil `Data` pointer serializes as null. -/
def encodeRelationshipObj (r : relationship) : Json :=
  Json.obj [("data",
    match r.data with
    | some d => relationshipDataMarshalJSON d
    | none => Json.null)]

/-- Wire encoding of an `ErrorObject`: `title`, `code` omitted when empty;
`source` is a struct value whose zero value is the empty object, which
`omitempty` on a struct does not omit. -/
def encodeErrorObject (e : ErrorObject) : Json :=
  Json.obj (
    (if e.title = "" then [] else [("title", Json.str e.title)]) ++
    (if e.code = "" then [] else [("code", Json.str e.code)]) ++
    [("source", Json.obj
      (if e.source.pointer = "" then []
       else [("pointer", Json.str e.source.pointer)]))])

/-- The field list of the wire encoding of a `ResourceObject`: embedded
identifier fields, then `attributes`, `meta` (raw messages, omitted when nil)
and `relationships` (a map, omitted when nil or empty). -/
def encodeResourceObjectFields (ro : ResourceObject) : List (String × Json) :=
  (
    [("type", Json.str ro.identifier.type_)] ++
    (if ro.identifier.id = "" then [] else [("id", Json.str ro.identifier.id)]) ++
    (match ro.attributes with
     | some a => [("attributes", a)]
     | none => []) ++
    (match ro.meta with
     | some m => [("meta", m)]
     | none => []) ++
    (match ro.relationships with
     | some [] => []
     | some rels => [("relationships",
         Json.obj (rels.map fun kv => (kv.1, encodeRelationshipObj kv.2)))]
     | none => []))

/-- Wire encoding of a `ResourceObject` as a JSON object. -/
def encodeResourceObject (ro : ResourceObject) : Json :=
  Json.obj (encodeResourceObjectFields ro)

/-- `documentData.MarshalJSON` from jsonapi.go: encode `One` when non-nil,
otherwise encode `Many` (null when that is nil too). -/
def documentDataMarshalJSON (dd : DocumentData) : Json :=
  match dd.one with
  | some ro => encodeResourceObject ro
  | none =>
      match dd.many with
      | some ros => Json.arr (ros.map encodeResourceObject)
      | none => Json.null

/-- Wire encoding of a `Document`: `data`, `errors`, `included`, `meta`, each
tagged omitempty (a nil `data` pointer, a nil-or-empty `errors` / `included`
slice and a nil `meta` raw message are omitted). -/
def encodeDocument (doc : Document) : Json :=
  Json.obj (
    (match doc.data with
     | some dd => [("data", documentDataMarshalJSON dd)]
     | none => []) ++
    (match doc.errors with
     | some [] => []
     | some es => [("errors", Json.arr (es.map encodeErrorObject))]
     | none => []) ++
    (match doc.included with
     | [] => []
     | ros => [("included", Json.arr (ros.map encodeResourceObject))]) ++
    (match doc.meta with
     | some m => [("meta", m)]
     | none => []))

/-- `Marshal` from jsonapi.go, to the JSON AST level: assemble the document
and serialize it (pointer payloads are dereferenced before this point, which
does not change the capability set used here). -/
def Marshal (p : MarshalPayload) : Json :=
  encodeDocument (marshalDocument p)

/-- Generic decode of a `ResourceObjectIdentifier` from a JSON object: string
fields `type` and `id`, defaulting to the zero value when absent or null. -/
def decodeResourceObjectIdentifier (j : Json) : Except String ResourceObjectIdentifier :=
  match j with
  | Json.obj fields => do
      let ty ← match getField fields "type" with
        | none => Except.ok ""
        | some Json.null => Except.ok ""
        | some (Json.str s) => Except.ok s
        | some _ => Except.error "type: cannot unmarshal into string"
      let i ← match getField fields "id" with
        | none => Except.ok ""
        | some Json.null => Except.ok ""
        | some (Json.str s) => Except.ok s
        | some _ => Except.error "id: cannot unmarshal into string"
      Except.ok { type_ := ty, id := i }
  | _ => Except.error "resource object identifier: expected object"

/-- Element-wise decode of a JSON array of resource object identifiers, as the
generic decoder fills a slice. -/
def decodeIdentList : List Json → Except String (List ResourceObjectIdentifier)
  | [] => Except.ok []
  | j :: rest => do
      let i ← decodeResourceObjectIdentifier j
      let l ← decodeIdentList rest
      Except.ok (i :: l)

/-- `relationshipData.UnmarshalJSON` from jsonapi.go: an object-shaped payload
decodes into `One`, an array-shaped payload into `Many`, and anything else is
accepted silently, leaving both unset. -/
def relationshipDataUnmarshalJSON (j : Json) : Except String relationshipData :=
  match j with
  | Json.obj _ =>
      (decodeResourceObjectIdentifier j).map fun o => { one := some o, many := none }
  | Json.arr items =>
      (decodeIdentList items).map fun l => { one := none, many := some l }
  | _ => Except.ok { one := none, many := none }

/-- Generic decode of a `relationship` object: the `data` field feeds the
custom `relationshipData` decoder; an absent or null `data` leaves the nil
pointer in place. -/
def decodeRelationship (j : Json) : Except String relationship :=
  match j with
  | Json.obj fields =>
      match getField fields "data" with
      | none => Except.ok { data := none }
      | some Json.null => Except.ok { data := none }
      | some v => (relationshipDataUnmarshalJSON v).map fun d => { data := some d }
  | _ => Except.error "relationship: expected object"

/-- Element-wise decode of the fields of a JSON relationships object, as the
generic decoder fills a map. -/
def decodeRelPairs : List (String × Json) → Except String (List (String × relationship))
  | [] => Except.ok []
  | kv :: rest => do
      let r ← decodeRelationship kv.2
      let l ← decodeRelPairs rest
      Except.ok ((kv.1, r) :: l)

/-- Generic decode of an `ErrorObject` from a JSON object. -/
def decodeErrorObject (j : Json) : Except String ErrorObject :=
  match j with
  | Json.obj fields => do
      let title ← match getField fields "title" with
        | none => Except.ok ""
        | some Json.null => Except.ok ""
        | some (Json.str s) => Except.ok s
        | some _ => Except.error "title: cannot unmarshal into string"
      let code ← match getField fields "code" with
        | none => Except.ok ""
        | some Json.null => Except.ok ""
        | some (Json.str s) => Except.ok s
        | some _ => Except.error "code: cannot unmarshal into string"
      let pointer ← match getField fields "source" with
        | none => Except.ok ""
        | some Json.null => Except.ok ""
        | some (Json.obj sfields) =>
            match getField sfields "pointer" with
            | none => Except.ok ""
            | some Json.null => Except.ok ""
            | some (Json.str s) => Except.ok s
            | some _ => Except.error "pointer: cannot unmarshal into string"
        | some _ => Except.error "source: cannot unmarshal into struct"
      Except.ok { title := title, code := code, source := { pointer := pointer } }
  | _ => Except.error "error object: expected object"

/-- Generic decode of a `ResourceObject`: identifier fields, raw `attributes`
and `meta` sub-documents (absent or null raw messages behave as empty), and
the relationships map through the custom relationship decoder. -/
def decodeResourceObject (j : Json) : Except String ResourceObject :=
  match j with
  | Json.obj fields => do
      let ident ← decodeResourceObjectIdentifier j
      let attributes : Option Json :=
        match getField fields "attributes" with
        | none => none
        | some Json.null => none
        | some v => some v
      let meta : Option Json :=
        match getField fields "meta" with
        | none => none
        | some Json.null => none
        | some v => some v
      let relationships ← match getField fields "relationships" with
        | none => Except.ok none
        | some Json.null => Except.ok none
        | some (Json.obj rfields) => (decodeRelPairs rfields).map some
        | some _ => Except.error "relationships: cannot unmarshal into map"
      Except.ok { identifier := ident, attributes := attributes, meta := meta
                , relationships := relationships }
  | _ => Except.error "resource object: expected object"

/-- Element-wise decode of a JSON array of error objects. -/
def decodeErrorList : List Json → Except String (List ErrorObject)
  | [] => Except.ok []
  | j :: rest => do
      let e ← decodeErrorObject j
      let l ← decodeErrorList rest
      Except.ok (e :: l)

/-- Element-wise decode of a JSON array of resource objects. -/
def decodeResourceObjectList : List Json → Except String (List ResourceObject)
  | [] => Except.ok []
  | j :: rest => do
      let ro ← decodeResourceObject j
      let l ← decodeResourceObjectList rest
      Except.ok (ro :: l)

/-- `documentData.UnmarshalJSON` from jsonapi.go: an object-shaped `data`
decodes into `One`, an array-shaped `data` into `Many`, and any other shape is
accepted silently, leaving both unset — no error is reported. -/
def documentDataUnmarshalJSON (j : Json) : Except String DocumentData :=
  match j with
  | Json.obj _ =>
      (decodeResourceObject j).map fun ro => { one := some ro, many := none }
  | Json.arr items =>
      (decodeResourceObjectList items).map fun ros => { one := none, many := some ros }
  | _ => Except.ok { one := none, many := none }

/-- Generic decode of a `Document`: `data` through the custom decoder (a null
`data` leaves the nil pointer), `errors` and `included` as slices, `meta` raw. -/
def decodeDocument (j : Json) : Except String Document :=
  match j with
  | Json.obj fields => do
      let data ← match getField fields "data" with
        | none => Except.ok none
        | some Json.null => Except.ok none
        | some v => (documentDataUnmarshalJSON v).map some
      let errors ← match getField fields "errors" with
        | none => Except.ok none
        | some Json.null => Except.ok none
        | some (Json.arr items) => (decodeErrorList items).map some
        | some _ => Except.error "errors: cannot unmarshal into slice"
      let included ← match getField fields "included" with
        | none => Except.ok []
        | some Json.null => Except.ok []
        | some (Json.arr items) => decodeResourceObjectList items
        | some _ => Except.error "included: cannot unmarshal into slice"
      let meta : Option Json :=
        match getField fields "meta" with
        | none => none
        | some Json.null => none
        | some v => some v
      Except.ok { data := data, errors := errors, included := included, meta := meta }
  | _ => Except.error "document: expected object"

/-- An unmarshal target's per-resource capabilities, as state transformers:
each setter returns the updated state and, like its Go counterpart, an
optional error.  `setAttributes` stands for `json.Unmarshal(ro.Attributes, ui)`
decoding into the target's own fields; `hasSetRel` records whether the dynamic
type implements `UnmarshalRelationships`. -/
structure ResourceTarget (σ : Type) where
  setAttributes : σ → Json → σ × Option String
  setID : σ → String → σ × Option String
  setType : σ → String → σ × Option String
  hasSetRel : Bool
  setRelationships : σ → List (String × RelValue) → σ × Option String

/-- The map built by `unmarshalRelationships` in jsonapi.go: for each
relationship with non-nil data, the key maps to `Many` when that is non-nil
(it is assigned after `One` and overwrites it), else to `One` when that is
non-nil; keys whose data has neither are absent. -/
def relationshipsMap (ro : ResourceObject) : List (String × RelValue) :=
  (ro.relationships.getD []).filterMap fun kv =>
    match kv.2.data with
    | none => none
    | some d =>
        match d.many with
        | some l => some (kv.1, RelValue.sequence l)
        | none =>
            match d.one with
            | some o => some (kv.1, RelValue.record o)
            | none => none

/-- `unmarshalResourceObject` from jsonapi.go: decode non-empty attributes into
the target, then `SetID`, then `SetType`, then — when the target implements
`UnmarshalRelationships` — `SetRelationships` with the assembled map; the
first failure aborts and is returned as is. -/
def unmarshalResourceObject (t : ResourceTarget σ) (ro : ResourceObject) (s : σ) :
    σ × Option String :=
  let step1 :=
    match ro.attributes with
    | some a => t.setAttributes s a
    | none => (s, none)
  match step1 with
  | (s1, some e) => (s1, some e)
  | (s1, none) =>
      match t.setID s1 ro.identifier.id with
      | (s2, some e) => (s2, some e)
      | (s2, none) =>
          match t.setType s2 ro.identifier.type_ with
          | (s3, some e) => (s3, some e)
          | (s3, none) =>
              if t.hasSetRel then t.setRelationships s3 (relationshipsMap ro)
              else (s3, none)

/-- An unmarshal target's document-level capabilities.  `hasSetData` records
whether the dynamic type implements `UnmarshalData`; `projectOne` and
`projectMany` are what `SetData` does when handed the pipeline's projector for
a single resource object / a collection (for the canonical wrapper
`SetData(to) = to(inner)` this applies `unmarshalOne` / `unmarshalMany` to the
wrapped destination).  `hasSetErrors` records `UnmarshalErrors`. -/
structure Target (σ : Type) where
  hasSetData : Bool
  projectOne : ResourceObject → σ → σ × Option String
  projectMany : List ResourceObject → σ → σ × Option String
  hasSetErrors : Bool
  setErrors : σ → List ErrorObject → σ × Option String

/-- The body of `Unmarshal` from jsonapi.go after the document has been
decoded: when the target implements `UnmarshalData` and `data` is present,
project `One` (returning any error) and then `Many`; afterwards, when the
target implements `UnmarshalErrors` and `errors` is present, call `SetErrors`
— discarding the value it returns (jsonapi.go line 597 ignores it). -/
def unmarshalDocGo (t : Target σ) (doc : Document) (s : σ) : σ × Option String :=
  let dataStep :=
    if t.hasSetData then
      match doc.data with
      | none => (s, none)
      | some dd =>
          match dd.one with
          | some one =>
              match t.projectOne one s with
              | (s1, some e) => (s1, some e)
              | (s1, none) =>
                  match dd.many with
                  | some many => t.projectMany many s1
                  | none => (s1, none)
          | none =>
              match dd.many with
              | some many => t.projectMany many s
              | none => (s, none)
    else (s, none)
  match dataStep with
  | (s1, some e) => (s1, some e)
  | (s1, none) =>
      let s2 :=
        if t.hasSetErrors then
          match doc.errors with
          | some es => (t.setErrors s1 es).1
          | none => s1
        else s1
      (s2, none)

/-- `Unmarshal` from jsonapi.go, at the JSON AST level: decode the document
(failing fast on a decode error) and then run the projection body, returning
the parsed document alongside the possibly mutated target state and error. -/
def Unmarshal (t : Target σ) (j : Json) (s : σ) :
    Option Document × σ × Option String :=
  match decodeDocument j with
  | Except.error e => (none, s, some e)
  | Except.ok doc =>
      match unmarshalDocGo t doc s with
      | (s1, e) => (some doc, s1, e)

/-- A concrete user record for the round-trip property: an identifier, a list
of string attribute fields (the json-tagged fields the generic codec sees) and
an optional relationships map (`none` when the type implements neither
`MarshalRelationships` nor `UnmarshalRelationships`). -/
structure Record where
  id : String
  type_ : String
  attrs : List (String × String)
  rels : Option (List (String × RelValue))
deriving DecidableEq, Repr

/-- The generic JSON encoding of a record's attribute fields. -/
def encodeAttrs (a : List (String × String)) : Json :=
  Json.obj (a.map fun kv => (kv.1, Json.str kv.2))

/-- Element-wise decode of attribute fields, each of which must be a string. -/
def decodeAttrFields : List (String × Json) → Except String (List (String × String))
  | [] => Except.ok []
  | kv :: rest =>
      match kv.2 with
      | Json.str s => do
          let l ← decodeAttrFields rest
          Except.ok ((kv.1, s) :: l)
      | _ => Except.error "attributes: cannot unmarshal into string field"

/-- The generic JSON decoding of attribute fields into a record: every field
must be a string, mirroring how `json.Unmarshal` fills the string fields. -/
def decodeAttrs (j : Json) : Except String (List (String × String)) :=
  match j with
  | Json.obj fields => decodeAttrFields fields
  | _ => Except.error "attributes: expected object"

/-- The `MarshalResourceIdentifier`/`MarshalRelationships` view of a record. -/
def recordResource (x : Record) : Resource :=
  { id := x.id, type_ := x.type_, attributes := encodeAttrs x.attrs
  , meta := none, rels := x.rels }

/-- The canonical data-wrapper view of a record, implementing `GetData` as in
the library's README and tests (`GetData` returns the record itself). -/
def recordView (x : Record) : MarshalPayload :=
  { getData := some (DataValue.one (recordResource x))
  , getErrors := none, getIncluded := none, getMeta := none }

/-- The record's unmarshal capabilities: attribute decode replaces the decoded
fields, `SetID`/`SetType` store their argument, and — when the record type
implements `UnmarshalRelationships` — `SetRelationships` stores the map. -/
def recordResourceTarget (hasRel : Bool) : ResourceTarget Record :=
  { setAttributes := fun s j =>
      match decodeAttrs j with
      | Except.ok a => ({ s with attrs := a }, none)
      | Except.error e => (s, some e)
  , setID := fun s i => ({ s with id := i }, none)
  , setType := fun s ty => ({ s with type_ := ty }, none)
  , hasSetRel := hasRel
  , setRelationships := fun s m => ({ s with rels := some m }, none) }

/-- The record's document-level target: `SetData(to) = to(record)` as in the
README, so projecting a single resource runs `unmarshalResourceObject` on the
record itself.  `projectMany` is never reached for single-resource documents. -/
def recordTarget (hasRel : Bool) : Target Record :=
  { hasSetData := true
  , projectOne := fun ro s => unmarshalResourceObject (recordResourceTarget hasRel) ro s
  , projectMany := fun _ s => (s, none)
  , hasSetErrors := false
  , setErrors := fun s _ => (s, none) }

/-- A fresh record target: all fields at their zero values. -/
def freshRecord : Record :=
  { id := "", type_ := "", attrs := [], rels := none }

/-- A record target that additionally implements `UnmarshalErrors`, with a
`SetErrors` that rejects every error list. -/
def bothTarget : Target Record :=
  { hasSetData := true
  , projectOne := fun ro s => unmarshalResourceObject (recordResourceTarget true) ro s
  , projectMany := fun _ s => (s, none)
  , hasSetErrors := true
  , setErrors := fun s _ => (s, some "rejected") }

/-- A resource target whose `SetID` rejects every identifier. -/
def idRejectTarget : ResourceTarget Record :=
  { setAttributes := fun s _ => (s, none)
  , setID := fun s _ => (s, some "id rejected")
  , setType := fun s ty => ({ s with type_ := ty }, none)
  , hasSetRel := false
  , setRelationships := fun s m => ({ s with rels := some m }, none) }

/-- A record whose only relationship is a to-one with an empty identifier. -/
def xEmptyRel : Record :=
  ⟨"1", "books", [("title", "T")], some [("author", RelValue.record ⟨"authors", ""⟩)]⟩

/-- A record with attributes and three relationships: a to-one with a non-empty
id, a to-many with two identifiers (one of them empty) and an empty to-many. -/
def xGood : Record :=
  ⟨"1", "books", [("title", "T"), ("year", "2012")],
    some [("author", RelValue.record ⟨"authors", "7"⟩),
          ("readers", RelValue.sequence [⟨"people", "1"⟩, ⟨"people", ""⟩]),
          ("empty", RelValue.sequence [])]⟩

/-- An included author resource. -/
def authorResource : Resource :=
  ⟨"1", "authors", Json.obj [("name", Json.str "A")], none, none⟩

/-- A collection payload whose `GetIncluded` reports the same author twice,
as in the library's own collection-with-included test. -/
def dupIncludedPayload : MarshalPayload :=
  ⟨some (DataValue.many []), none, some [authorResource, authorResource], none⟩

/-- An error object with just a title. -/
def eBad : ErrorObject := ⟨"bad", "", ⟨""⟩⟩

/-- A payload implementing both `MarshalData` (GetData) and `MarshalErrors`
(GetErrors). -/
def bothCapsPayload : MarshalPayload :=
  ⟨some (DataValue.one ⟨"1", "books", Json.obj [], none, none⟩), some [eBad], none, none⟩

/-- A payload implementing only `MarshalErrors`. -/
def errsPayload : MarshalPayload := ⟨none, some [eBad], none, none⟩

/-- A wire document carrying both `data` and `errors`. -/
def docBothJson : Json :=
  Json.obj [("data", Json.obj [("type", Json.str "books"), ("id", Json.str "1")]),
            ("errors", Json.arr [Json.obj [("title", Json.str "bad")]])]

/-- A wire document carrying only `errors`. -/
def docErrsJson : Json :=
  Json.obj [("errors", Json.arr [Json.obj [("title", Json.str "bad")]])]

/-- Whether a JSON object has a given key. -/
def Json.hasKey (j : Json) (k : String) : Bool :=
  match j with
  | Json.obj fields => (getField fields k).isSome
  | _ => false

/-- The shape of attributes after marshalling a record: omitted when the
record has no json-visible fields. -/
def attrsOpt (x : Record) : Option Json :=
  match x.attrs with
  | [] => none
  | _ => some (encodeAttrs x.attrs)

/-- The marshalled relationships of a record as they come back from the wire:
a nil map stays nil, and an empty map is omitted on the wire so it also comes
back nil. -/
def relsOptDec (x : Record) : Option (List (String × relationship)) :=
  match x.rels with
  | none => none
  | some [] => none
  | some m => some (marshalRelationships m)

/-- A string has positive length exactly when it is not the empty string. -/
theorem length_pos_iff_ne_empty (s : String) : 0 < s.length ↔ s ≠ "" := by
  obtain ⟨d⟩ := s
  simp [String.ext_iff, String.length_mk, List.length_pos]

/-- Decoding the wire form of a resource object identifier recovers it. -/
theorem decode_encode_ident (i : ResourceObjectIdentifier) :
    decodeResourceObjectIdentifier (encodeResourceObjectIdentifier i) = Except.ok i := by
  obtain ⟨ty, id_⟩ := i
  by_cases h : id_ = ""
  · subst h; rfl
  · simp only [encodeResourceObjectIdentifier, if_neg h]
    rfl

/-- Decoding a list of encoded identifiers recovers the list. -/
theorem decode_encode_ident_list (l : List ResourceObjectIdentifier) :
    decodeIdentList (l.map encodeResourceObjectIdentifier) = Except.ok l := by
  induction l with
  | nil => rfl
  | cons a l ih =>
      simp only [List.map_cons, decodeIdentList, decode_encode_ident, ih]
      rfl


theorem decode_encode_relationship (rv : RelValue)
    (h : ∀ i, rv = RelValue.record i → i.id ≠ "") :
    decodeRelationship (encodeRelationshipObj (marshalRelationship rv)) =
      Except.ok (marshalRelationship rv) := by
  cases rv with
  | record i =>
      have hne : 0 < i.id.length := (length_pos_iff_ne_empty i.id).mpr (h i rfl)
      have h0 : ¬ i.id = "" := h i rfl
      obtain ⟨ty, id_⟩ := i
      simp only [marshalRelationship, marshalRelationshipStruct, encodeRelationshipObj,
        relationshipDataMarshalJSON, if_pos hne, encodeResourceObjectIdentifier, if_neg h0]
      rfl
  | sequence l =>
      simp only [marshalRelationship, marshalRelationshipSlice, encodeRelationshipObj,
        relationshipDataMarshalJSON]
      show (relationshipDataUnmarshalJSON
        (Json.arr (l.map encodeResourceObjectIdentifier))).map
          (fun d => relationship.mk (some d)) = _
      simp only [relationshipDataUnmarshalJSON, decode_encode_ident_list]
      rfl

theorem decode_encode_relationships (m : List (String × RelValue))
    (h : ∀ k i, (k, RelValue.record i) ∈ m → i.id ≠ "") :
    decodeRelPairs ((marshalRelationships m).map fun kv => (kv.1, encodeRelationshipObj kv.2)) =
      Except.ok (marshalRelationships m) := by
  induction m with
  | nil => rfl
  | cons a m ih =>
      obtain ⟨k, rv⟩ := a
      have h1 : ∀ i, rv = RelValue.record i → i.id ≠ "" := by
        intro i hi
        subst hi
        exact h k i (List.mem_cons_self _ _)
      have h2 : ∀ k i, (k, RelValue.record i) ∈ m → i.id ≠ "" := fun k i hm =>
        h k i (List.mem_cons_of_mem _ hm)
      simp only [marshalRelationships, List.map_cons, decodeRelPairs] at ih ⊢
      rw [decode_encode_relationship rv h1]
      rw [ih h2]
      rfl

theorem recover_marshalled_relationships (m : List (String × RelValue)) :
    (marshalRelationships m).filterMap (fun kv =>
      match kv.2.data with
      | none => none
      | some d =>
          match d.many with
          | some l => some (kv.1, RelValue.sequence l)
          | none =>
              match d.one with
              | some o => some (kv.1, RelValue.record o)
              | none => none) = m := by
  induction m with
  | nil => rfl
  | cons a m ih =>
      obtain ⟨k, rv⟩ := a
      cases rv with
      | record i =>
          simp only [marshalRelationships, List.map_cons, List.filterMap_cons] at ih ⊢
          simpa [marshalRelationship, marshalRelationshipStruct] using ih
      | sequence l =>
          simp only [marshalRelationships, List.map_cons, List.filterMap_cons] at ih ⊢
          simpa [marshalRelationship, marshalRelationshipSlice] using ih

/-- Decoding the generic encoding of a record's attribute fields recovers them. -/
theorem decode_encode_attrs (a : List (String × String)) :
    decodeAttrs (encodeAttrs a) = Except.ok a := by
  show decodeAttrFields (a.map fun kv => (kv.1, Json.str kv.2)) = Except.ok a
  induction a with
  | nil => rfl
  | cons kv rest ih =>
      simp only [List.map_cons, decodeAttrFields, ih]
      rfl

/-- Marshalling the resource view of a record produces this resource object. -/
theorem marshal_record_resource (x : Record) :
    marshalResourceObject (recordResource x) =
      ⟨⟨x.type_, x.id⟩, attrsOpt x, none,
        match x.rels with
        | none => none
        | some m => some (marshalRelationships m)⟩ := by
  obtain ⟨xid, xty, xattrs, xrels⟩ := x
  cases xattrs with
  | nil => cases xrels <;> rfl
  | cons kv rest => cases xrels <;> rfl

/-- Decoding the wire form of a marshalled record resource object recovers it,
up to the empty-relationships-map normalization, provided every to-one
relationship has a non-empty identifier. -/
theorem decode_encode_resource (x : Record)
    (h : ∀ k i, (k, RelValue.record i) ∈ x.rels.getD [] → i.id ≠ "") :
    decodeResourceObject (encodeResourceObject (marshalResourceObject (recordResource x))) =
      Except.ok ⟨⟨x.type_, x.id⟩, attrsOpt x, none, relsOptDec x⟩ := by
  rw [marshal_record_resource]
  obtain ⟨xid, xty, xattrs, xrels⟩ := x
  rcases xrels with _ | ⟨_ | ⟨⟨k, rv⟩, m⟩⟩
  · by_cases hid : xid = ""
    · subst hid
      cases xattrs <;> rfl
    · cases xattrs with
      | nil =>
          simp only [encodeResourceObject, encodeResourceObjectFields]
          rw [if_neg hid]
          rfl
      | cons kv rest =>
          simp only [encodeResourceObject, encodeResourceObjectFields]
          rw [if_neg hid]
          rfl
  · by_cases hid : xid = ""
    · subst hid
      cases xattrs <;> rfl
    · cases xattrs with
      | nil =>
          simp only [encodeResourceObject, encodeResourceObjectFields]
          rw [if_neg hid]
          rfl
      | cons kv rest =>
          simp only [encodeResourceObject, encodeResourceObjectFields]
          rw [if_neg hid]
          rfl
  · have hm : ∀ k2 i, (k2, RelValue.record i) ∈ ((k, rv) :: m) → i.id ≠ "" := by
      simpa using h
    have hrel := decode_encode_relationships ((k, rv) :: m) hm
    simp only [marshalRelationships, List.map_cons, List.map_map] at hrel
    by_cases hid : xid = ""
    · subst hid
      cases xattrs with
      | nil =>
          simp only [encodeResourceObject, encodeResourceObjectFields, attrsOpt, relsOptDec]
          simp only [decodeResourceObject]
          simp only [List.cons_append, List.nil_append, List.append_nil, if_true]
          simp [getField]
          rw [hrel]
          rfl
      | cons kv2 rest =>
          simp only [encodeResourceObject, encodeResourceObjectFields, attrsOpt, relsOptDec]
          simp only [decodeResourceObject]
          simp only [List.cons_append, List.nil_append, List.append_nil, if_true]
          simp [getField]
          rw [hrel]
          rfl
    · cases xattrs with
      | nil =>
          simp only [encodeResourceObject, encodeResourceObjectFields, attrsOpt, relsOptDec]
          rw [if_neg hid]
          simp only [decodeResourceObject]
          simp only [List.cons_append, List.nil_append, List.append_nil]
          simp [getField]
          rw [hrel]
          rfl
      | cons kv2 rest =>
          simp only [encodeResourceObject, encodeResourceObjectFields, attrsOpt, relsOptDec]
          rw [if_neg hid]
          simp only [decodeResourceObject]
          simp only [List.cons_append, List.nil_append, List.append_nil]
          simp [getField]
          rw [hrel]
          rfl

/-- Decoding the full marshalled document of a record's data-wrapper view
recovers the single-resource document. -/
theorem decode_encode_document_one (x : Record)
    (h : ∀ k i, (k, RelValue.record i) ∈ x.rels.getD [] → i.id ≠ "") :
    decodeDocument (Marshal (recordView x)) =
      Except.ok ⟨some ⟨some ⟨⟨x.type_, x.id⟩, attrsOpt x, none, relsOptDec x⟩, none⟩,
        none, [], none⟩ := by
  have hres := decode_encode_resource x h
  simp only [encodeResourceObject] at hres
  show decodeDocument (Json.obj [("data",
    Json.obj (encodeResourceObjectFields (marshalResourceObject (recordResource x))))]) = _
  simp only [decodeDocument]
  simp [getField]
  simp only [documentDataUnmarshalJSON]
  rw [hres]
  rfl

/-- Projecting the decoded resource object of a marshalled record onto a fresh
record target reproduces the record exactly. -/
theorem unmarshal_decoded_record (x : Record) :
    unmarshalResourceObject (recordResourceTarget x.rels.isSome)
      ⟨⟨x.type_, x.id⟩, attrsOpt x, none, relsOptDec x⟩ freshRecord = (x, none) := by
  obtain ⟨xid, xty, xattrs, xrels⟩ := x
  rcases xrels with _ | ⟨_ | ⟨⟨k, rv⟩, m⟩⟩
  · cases xattrs with
    | nil => rfl
    | cons kv rest =>
        simp only [unmarshalResourceObject, attrsOpt, relsOptDec, recordResourceTarget,
          freshRecord]
        rw [decode_encode_attrs]
        rfl
  · cases xattrs with
    | nil => rfl
    | cons kv rest =>
        simp only [unmarshalResourceObject, attrsOpt, relsOptDec, recordResourceTarget,
          freshRecord]
        rw [decode_encode_attrs]
        rfl
  · have hrec := recover_marshalled_relationships ((k, rv) :: m)
    cases xattrs with
    | nil =>
        simp only [unmarshalResourceObject, attrsOpt, relsOptDec, recordResourceTarget,
          freshRecord, relationshipsMap]
        simp only [Option.getD]
        rw [hrec]
        rfl
    | cons kv2 rest =>
        simp only [unmarshalResourceObject, attrsOpt, relsOptDec, recordResourceTarget,
          freshRecord, relationshipsMap]
        rw [decode_encode_attrs]
        simp only [Option.getD]
        rw [hrec]
        rfl

/-- C1 (amended): for every record implementing the marshal capability
interfaces through the canonical data wrapper and the matching unmarshal
interfaces, unmarshalling the bytes produced by marshalling it into a fresh
target reproduces its identifier, its attribute fields and its relationship
identifiers exactly, provided every to-one relationship identifier has a
non-empty id — an empty-id to-one relationship is serialized as null and is
dropped by the unmarshal side, which is the correction this claim needs. -/
theorem c1_roundtrip_nonempty_to_one (x : Record)
    (h : ∀ k i, (k, RelValue.record i) ∈ x.rels.getD [] → i.id ≠ "") :
    (Unmarshal (recordTarget x.rels.isSome) (Marshal (recordView x)) freshRecord).2 =
      (x, none) := by
  have hdoc := decode_encode_document_one x h
  have hproj := unmarshal_decoded_record x
  simp only [Unmarshal]
  rw [hdoc]
  simp only [unmarshalDocGo, recordTarget]
  rw [hproj]
  simp

/-- C1 witness: the round-trip theorem applied to a concrete record with
attributes, a to-one relationship with a non-empty id, a two-element to-many
relationship and an empty to-many relationship. -/
theorem c1_roundtrip_nonempty_to_one_witness :
    (∀ k i, (k, RelValue.record i) ∈ xGood.rels.getD [] → i.id ≠ "") ∧
    (Unmarshal (recordTarget xGood.rels.isSome) (Marshal (recordView xGood)) freshRecord).2 =
      (xGood, none) := by
  have hx : ∀ k i, (k, RelValue.record i) ∈ xGood.rels.getD [] → i.id ≠ "" := by
    intro k i hmem
    simp only [xGood, Option.getD, List.mem_cons, List.not_mem_nil, or_false] at hmem
    rcases hmem with h1 | h2 | h3 <;> simp_all
  exact ⟨hx, c1_roundtrip_nonempty_to_one xGood hx⟩

/-- C1 counterexample: a record whose only relationship is a to-one with an
empty id does not round-trip as the claim states — the relationship identifier
is lost (the target receives an empty relationships map). -/
theorem c1_empty_to_one_not_reproduced :
    (Unmarshal (recordTarget true) (Marshal (recordView xEmptyRel)) freshRecord).2.1.rels =
      some [] ∧
    xEmptyRel.rels = some [("author", RelValue.record ⟨"authors", ""⟩)] ∧
    (some [] : Option (List (String × RelValue))) ≠
      some [("author", RelValue.record ⟨"authors", ""⟩)] := by
  refine ⟨rfl, rfl, by decide⟩

/-- C2 (amended): the top-level included list is exactly the payload's
`GetIncluded` list marshalled in order — duplicates by (type, id) are retained,
nothing is deduplicated, and only the top-level payload's `GetIncluded` is
consulted (collection elements contribute nothing). -/
theorem c2_included_is_getincluded_verbatim (p : MarshalPayload) :
    (marshalDocument p).included = marshalIncluded (p.getIncluded.getD []) := by
  cases h : p.getIncluded <;> simp [marshalDocument, marshalIncluded, h]

/-- C2 counterexample: a payload whose `GetIncluded` reports the same
(type, id) twice — as in the library's own collection test — produces an
included list with two entries carrying the same identifier, refuting the
claimed deduplication. -/
theorem c2_duplicate_included_retained :
    ((marshalDocument dupIncludedPayload).included.map fun ro => ro.identifier) =
      [⟨"authors", "1"⟩, ⟨"authors", "1"⟩] := rfl

/-- C3 (amended): a payload implementing `MarshalErrors` and not `MarshalData`
marshals as an error document: the errors list is carried and the output has
no data key.  (As stated the claim is false: the Go type switch checks
`MarshalData` first, so a payload implementing both produces a data document.) -/
theorem c3_errors_only_payload_error_document (p : MarshalPayload)
    (es : List ErrorObject)
    (h1 : p.getData = none) (h2 : p.getErrors = some es) :
    (marshalDocument p).errors = some es ∧
    (marshalDocument p).data = none ∧
    Json.hasKey (encodeDocument (marshalDocument p)) "data" = false := by
  refine ⟨by simp [marshalDocument, h1, h2], by simp [marshalDocument, h1], ?_⟩
  simp only [encodeDocument, marshalDocument, h1, h2]
  rcases es with _ | ⟨e, es⟩ <;>
    rcases hinc : p.getIncluded with _ | ⟨_ | ⟨r, rs⟩⟩ <;>
      rcases hm : p.getMeta with _ | m <;>
        first
          | rfl
          | (cases m <;> first | rfl | (rename_i fs; cases fs <;> rfl))

/-- C3 witness: the errors-only payload marshals to an error document with the
error list and no data key. -/
theorem c3_errors_only_payload_error_document_witness :
    errsPayload.getData = none ∧ errsPayload.getErrors = some [eBad] ∧
    (marshalDocument errsPayload).errors = some [eBad] ∧
    (marshalDocument errsPayload).data = none ∧
    Json.hasKey (encodeDocument (marshalDocument errsPayload)) "data" = false := by
  have h := c3_errors_only_payload_error_document errsPayload [eBad] rfl rfl
  exact ⟨rfl, rfl, h.1, h.2.1, h.2.2⟩

/-- C3 counterexample: a payload implementing both `GetData` and `GetErrors`
marshals as a data document — the errors are dropped and a data key is
produced, refuting the claim for payloads that also implement GetData. -/
theorem c3_data_wins_over_errors :
    (marshalDocument bothCapsPayload).errors = none ∧
    (marshalDocument bothCapsPayload).data.isSome = true ∧
    Json.hasKey (encodeDocument (marshalDocument bothCapsPayload)) "data" = true ∧
    Json.hasKey (encodeDocument (marshalDocument bothCapsPayload)) "errors" = false :=
  ⟨rfl, rfl, rfl, rfl⟩

/-- C4 (amended): when the decoded document carries errors and the target
implements `UnmarshalErrors`, the errors are delivered through `SetErrors` —
but this does not stop data projection: when the document also carries a
single-resource data and the target implements `UnmarshalData`, the data is
projected onto the target first, and the errors are delivered afterwards
(with the `SetErrors` return value discarded). -/
theorem c4_errors_delivered_after_data_projection {σ : Type}
    (t : Target σ) (doc : Document) (s : σ)
    (one : ResourceObject) (es : List ErrorObject)
    (hd : doc.data = some ⟨some one, none⟩) (he : doc.errors = some es)
    (hsd : t.hasSetData = true) (hse : t.hasSetErrors = true)
    (hok : (t.projectOne one s).2 = none) :
    unmarshalDocGo t doc s = ((t.setErrors (t.projectOne one s).1 es).1, none) := by
  rcases hp : t.projectOne one s with ⟨s1, e1⟩
  rw [hp] at hok
  simp only at hok
  subst hok
  simp [unmarshalDocGo, hd, he, hsd, hse, hp]

/-- C4 witness: a concrete document carrying both data and errors, decoded
into a record target implementing both `SetData` and `SetErrors`: the data is
projected and the errors delivered afterwards. -/
theorem c4_errors_delivered_after_data_projection_witness :
    unmarshalDocGo bothTarget
      ⟨some ⟨some ⟨⟨"books", "1"⟩, none, none, none⟩, none⟩, some [eBad], [], none⟩
      freshRecord =
      ((bothTarget.setErrors
          (bothTarget.projectOne ⟨⟨"books", "1"⟩, none, none, none⟩ freshRecord).1
          [eBad]).1, none) :=
  c4_errors_delivered_after_data_projection bothTarget
    ⟨some ⟨some ⟨⟨"books", "1"⟩, none, none, none⟩, none⟩, some [eBad], [], none⟩
    freshRecord ⟨⟨"books", "1"⟩, none, none, none⟩ [eBad] rfl rfl rfl rfl rfl

/-- C4 counterexample: decoding a wire document that carries both data and
errors into a target implementing both capabilities performs the identifier
and relationship projection — the target ends up with the resource's id and
type — refuting the claim that error delivery stops all projection. -/
theorem c4_projection_despite_errors :
    (Unmarshal bothTarget docBothJson freshRecord).2.1 =
      ⟨"1", "books", [], some []⟩ ∧
    (decodeDocument docBothJson).map (fun doc => doc.errors) =
      Except.ok (some [⟨"bad", "", ⟨""⟩⟩]) :=
  ⟨rfl, rfl⟩

/-- C5: the Document assembled by the marshal path never has both its data
field and its errors field populated — the type switch sets exactly one of
them. -/
theorem c5_data_errors_mutually_exclusive (p : MarshalPayload) :
    (marshalDocument p).data = none ∨ (marshalDocument p).errors = none := by
  cases h : p.getData with
  | none => exact Or.inl (by simp [marshalDocument, h])
  | some dv => exact Or.inr (by simp [marshalDocument, h])

/-- C6 (amended): relationship shape dispatch — a record-shaped value with a
non-empty id marshals as a single identifier object, a record-shaped value
with an empty id marshals as null (the correction), a length-0 sequence
marshals as an empty array, and every sequence marshals as an array, never
collapsed to a single object. -/
theorem c6_relationship_shape_dispatch (rv : RelValue) :
    encodeRelationshipObj (marshalRelationship rv) =
      match rv with
      | RelValue.record i =>
          Json.obj [("data",
            if 0 < i.id.length then encodeResourceObjectIdentifier i else Json.null)]
      | RelValue.sequence l =>
          Json.obj [("data", Json.arr (l.map encodeResourceObjectIdentifier))] := by
  cases rv with
  | record i =>
      by_cases h : 0 < i.id.length
      · simp only [marshalRelationship, marshalRelationshipStruct, encodeRelationshipObj,
          relationshipDataMarshalJSON, if_pos h]
      · simp only [marshalRelationship, marshalRelationshipStruct, encodeRelationshipObj,
          relationshipDataMarshalJSON, if_neg h]
  | sequence l => rfl

/-- C6 counterexample: a record-shaped relationship value with an empty id
marshals as `data: null`, which is not an object — refuting the claim that a
record always marshals as a single identifier object. -/
theorem c6_empty_id_record_not_object :
    encodeRelationshipObj (marshalRelationship (RelValue.record ⟨"authors", ""⟩)) =
      Json.obj [("data", Json.null)] ∧
    Json.isObj Json.null = false :=
  ⟨rfl, rfl⟩

/-- C7 (amended): `Marshal` succeeds on a value implementing only
`GetID`/`GetType`, but produces an empty document with no data at all — the
`MarshalData` capability (GetData) is what produces data.  A value that also
implements `GetData` returning itself produces the minimal resource object
carrying its type and id. -/
theorem c7_data_requires_marshal_data (ty i : String) :
    (marshalDocument ⟨none, none, none, none⟩).data = none ∧
    encodeDocument (marshalDocument ⟨none, none, none, none⟩) = Json.obj [] ∧
    marshalDocument ⟨some (DataValue.one ⟨i, ty, Json.obj [], none, none⟩),
        none, none, none⟩ =
      ⟨some ⟨some ⟨⟨ty, i⟩, none, none, none⟩, none⟩, none, [], none⟩ :=
  ⟨rfl, rfl, rfl⟩

/-- C7 counterexample: a bare Identifiable value — one with only
`GetID`/`GetType`, hence satisfying none of the marshal capability
interfaces the type switch checks — marshals to the empty document; its
data is not a minimal resource object, it is absent. -/
theorem c7_bare_identifiable_empty_document :
    (marshalDocument ⟨none, none, none, none⟩).data = none ∧
    encodeDocument (marshalDocument ⟨none, none, none, none⟩) = Json.obj [] ∧
    Json.hasKey (encodeDocument (marshalDocument ⟨none, none, none, none⟩)) "data" =
      false :=
  ⟨rfl, rfl, rfl⟩

/-- When a decoded document has no data (or data with neither slot filled),
the unmarshal body reports no error — whatever the errors field holds, since
the `SetErrors` return value is discarded. -/
theorem unmarshalDocGo_noerr {σ : Type} (t : Target σ) (doc : Document) (s : σ)
    (hd : doc.data = none ∨ doc.data = some ⟨none, none⟩) :
    (unmarshalDocGo t doc s).2 = none := by
  rcases hd with hd | hd <;>
    cases ht : t.hasSetData <;>
      cases he : doc.errors <;>
        simp [unmarshalDocGo, hd, ht, he]

/-- C8 (amended): when the raw `data` value is neither object- nor
array-shaped, no decoding failure is surfaced — `documentData.UnmarshalJSON`
accepts it silently, leaving both the one and the many slot unset, and
`Unmarshal` completes without error. -/
theorem c8_nonobject_nonarray_data_silently_ignored {σ : Type}
    (v : Json) (t : Target σ) (s : σ)
    (h1 : Json.isObj v = false) (h2 : Json.isArr v = false) :
    documentDataUnmarshalJSON v = Except.ok ⟨none, none⟩ ∧
    (Unmarshal t (Json.obj [("data", v)]) s).2.2 = none := by
  cases v with
  | obj fields => exact Bool.noConfusion h1
  | arr items => exact Bool.noConfusion h2
  | null =>
      exact ⟨rfl, unmarshalDocGo_noerr t ⟨none, none, [], none⟩ s (Or.inl rfl)⟩
  | bool b =>
      exact ⟨rfl,
        unmarshalDocGo_noerr t ⟨some ⟨none, none⟩, none, [], none⟩ s (Or.inr rfl)⟩
  | num n =>
      exact ⟨rfl,
        unmarshalDocGo_noerr t ⟨some ⟨none, none⟩, none, [], none⟩ s (Or.inr rfl)⟩
  | str s2 =>
      exact ⟨rfl,
        unmarshalDocGo_noerr t ⟨some ⟨none, none⟩, none, [], none⟩ s (Or.inr rfl)⟩

/-- C8 witness: a numeric `data` value is neither object- nor array-shaped,
decodes into an empty documentData, and `Unmarshal` reports no error on it. -/
theorem c8_nonobject_nonarray_data_silently_ignored_witness :
    Json.isObj (Json.num 42) = false ∧ Json.isArr (Json.num 42) = false ∧
    documentDataUnmarshalJSON (Json.num 42) = Except.ok ⟨none, none⟩ ∧
    (Unmarshal (recordTarget false) (Json.obj [("data", Json.num 42)])
      freshRecord).2.2 = none :=
  ⟨rfl, rfl,
    (c8_nonobject_nonarray_data_silently_ignored (Json.num 42)
      (recordTarget false) freshRecord rfl rfl).1,
    (c8_nonobject_nonarray_data_silently_ignored (Json.num 42)
      (recordTarget false) freshRecord rfl rfl).2⟩

/-- C8 counterexample: on a document whose `data` is the number 42 — neither
object- nor array-shaped — `Unmarshal` returns no error at all, and the
decode succeeds with an empty documentData; the claim's promised decoding
failure does not happen. -/
theorem c8_no_error_on_number_data :
    (Unmarshal bothTarget (Json.obj [("data", Json.num 42)]) freshRecord).2.2 =
      none ∧
    decodeDocument (Json.obj [("data", Json.num 42)]) =
      Except.ok ⟨some ⟨none, none⟩, none, [], none⟩ :=
  ⟨rfl, rfl⟩

/-- C9 (amended): an error returned by the target's `SetID`, `SetType` or
`SetRelationships`, or surfaced through the `SetData` projection, is
propagated verbatim as the unmarshal result; the error returned by
`SetErrors`, however, is discarded (see the counterexample). -/
theorem c9_setter_errors_propagate_verbatim {σ : Type}
    (t : ResourceTarget σ) (tt : Target σ) (ro one : ResourceObject)
    (doc : Document) (s s1 s2 s3 : σ) (e : String) :
    (ro.attributes = none → t.setID s ro.identifier.id = (s1, some e) →
      unmarshalResourceObject t ro s = (s1, some e)) ∧
    (ro.attributes = none → t.setID s ro.identifier.id = (s1, none) →
      t.setType s1 ro.identifier.type_ = (s2, some e) →
      unmarshalResourceObject t ro s = (s2, some e)) ∧
    (ro.attributes = none → t.hasSetRel = true →
      t.setID s ro.identifier.id = (s1, none) →
      t.setType s1 ro.identifier.type_ = (s2, none) →
      t.setRelationships s2 (relationshipsMap ro) = (s3, some e) →
      unmarshalResourceObject t ro s = (s3, some e)) ∧
    (tt.hasSetData = true → doc.data = some ⟨some one, none⟩ →
      tt.projectOne one s = (s1, some e) →
      unmarshalDocGo tt doc s = (s1, some e)) := by
  refine ⟨?_, ?_, ?_, ?_⟩
  · intro ha hid
    simp [unmarshalResourceObject, ha, hid]
  · intro ha hid hty
    simp [unmarshalResourceObject, ha, hid, hty]
  · intro ha hrel hid hty hsr
    simp [unmarshalResourceObject, ha, hid, hty, hrel, hsr]
  · intro hsd hdata hone
    simp [unmarshalDocGo, hsd, hdata, hone]

/-- C9 witness: a target whose `SetID` rejects every identifier makes the
resource projection fail with exactly that error. -/
theorem c9_setter_errors_propagate_verbatim_witness :
    unmarshalResourceObject idRejectTarget ⟨⟨"books", "1"⟩, none, none, none⟩
      freshRecord = (freshRecord, some "id rejected") :=
  (c9_setter_errors_propagate_verbatim idRejectTarget bothTarget
    ⟨⟨"books", "1"⟩, none, none, none⟩ ⟨⟨"books", "1"⟩, none, none, none⟩
    ⟨none, none, [], none⟩ freshRecord freshRecord freshRecord freshRecord
    "id rejected").1 rfl rfl

/-- C9 counterexample: a target whose `SetErrors` returns an error — the
error is silently discarded: `Unmarshal` on an errors-only document returns
no error at all, refuting the claim for the `SetErrors` setter. -/
theorem c9_set_errors_result_discarded :
    bothTarget.setErrors freshRecord [⟨"bad", "", ⟨""⟩⟩] =
      (freshRecord, some "rejected") ∧
    (Unmarshal bothTarget docErrsJson freshRecord).2.2 = none :=
  ⟨rfl, rfl⟩

/-- C10: a to-one relationship marshals through the single-identifier branch
only when the identifier's id is non-empty; with an empty id the relationship
data is emitted as null, not as an identifier object with an empty id. -/
theorem c10_empty_id_to_one_marshals_null (i : ResourceObjectIdentifier) :
    encodeRelationshipObj (marshalRelationshipStruct i) =
      Json.obj [("data",
        if 0 < i.id.length then encodeResourceObjectIdentifier i else Json.null)] := by
  by_cases h : 0 < i.id.length
  · simp only [marshalRelationshipStruct, encodeRelationshipObj,
      relationshipDataMarshalJSON, if_pos h]
  · simp only [marshalRelationshipStruct, encodeRelationshipObj,
      relationshipDataMarshalJSON, if_neg h]
